import Mathlib

/-!
Shallow Lean embedding of the LedgerLens frontend (React/TypeScript).

The embedding covers:
* the response-to-display-model mapping functions `mapAccountInfo`,
  `mapMonthlyStats` and the inline analytics mapping of `App` (the
  polling variant of the component);
* the upload handler (`onDrop`) and the poll callback (`pollForResults`)
  of the upload-poll controller, modelled as effect traces over explicit
  resumption segments of the single-threaded event loop;
* the poll-loop timing state (interval growth, accumulated wait budget);
* the login lockout parsing and countdown of `LoginPage`;
* the `PasscodeInput` cell state machine.

JS conventions modelled explicitly:
* an absent (`undefined`/`null`) field is `Option.none`;
* `a || b` on numbers/strings uses JS falsiness (`0`, `""`, `undefined`
  are falsy), embedded as `jsOrInt` / `jsOrStr`;
* `a ?? b` (nullish coalescing) is `Option.getD`;
* `Math.floor (x * 1.5)` on the non-negative integers produced by the
  poll loop is exact in IEEE doubles for this magnitude, hence embedded
  as `3 * x / 2` in `Nat`.
-/

namespace LedgerLens

/-- JS `x || d` for an optional numeric field: `undefined` and `0` are
falsy, so both fall through to the default. -/
def jsOrInt (x : Option Int) (d : Int) : Int :=
  match x with
  | none => d
  | some v => if v = 0 then d else v

/-- JS `x || d` for an optional string field: `undefined` and `""` are
falsy, so both fall through to the default. -/
def jsOrStr (x : Option String) (d : String) : String :=
  match x with
  | none => d
  | some v => if v = "" then d else v

/-- Server-side `account_info` record (all fields may be absent). -/
structure AccountInfoSrc where
  customer_name : Option String := none
  account_number : Option String := none
  iban_number : Option String := none
  opening_balance : Option Int := none
  closing_balance : Option Int := none
  financial_period : Option String := none
  pages_processed : Option Int := none
  total_transactions : Option Int := none
  deriving DecidableEq, Repr

/-- Display model for account info, as built by `mapAccountInfo`. -/
structure AccountInfoView where
  customerName : String
  accountNumber : String
  ibanNumber : String
  openingBalance : Int
  closingBalance : Int
  financialPeriod : String
  pagesProcessed : Int
  totalTransactions : Int
  deriving DecidableEq, Repr

/-- Embedding of `mapAccountInfo` (App.tsx lines 38–49, polling variant
lines 9–20): every field uses JS `||` with `""`/`0` defaults. -/
def mapAccountInfo (a : AccountInfoSrc) : AccountInfoView :=
  { customerName := jsOrStr a.customer_name ""
    accountNumber := jsOrStr a.account_number ""
    ibanNumber := jsOrStr a.iban_number ""
    openingBalance := jsOrInt a.opening_balance 0
    closingBalance := jsOrInt a.closing_balance 0
    financialPeriod := jsOrStr a.financial_period ""
    pagesProcessed := jsOrInt a.pages_processed 0
    totalTransactions := jsOrInt a.total_transactions 0 }

/-- Server-side per-month statistics record (all fields may be absent). -/
structure MonthlyStatsSrc where
  opening_balance : Option Int := none
  closing_balance : Option Int := none
  total_credit : Option Int := none
  total_debit : Option Int := none
  net_change : Option Int := none
  fluctuation : Option Int := none
  international_inward_count : Option Int := none
  international_outward_count : Option Int := none
  international_inward_total : Option Int := none
  international_outward_total : Option Int := none
  minimum_balance : Option Int := none
  deriving DecidableEq, Repr

/-- Display model for one month, as built by `mapMonthlyStats`. -/
structure MonthlyStatsView where
  month : String
  openingBalance : Int
  closingBalance : Int
  inflows : Int
  outflows : Int
  netChange : Int
  fluctuation : Int
  foreignTxns : Int
  foreignAmount : Int
  minBalance : Int
  deriving DecidableEq, Repr

/-- Embedding of `mapMonthlyStats` (App.tsx lines 51–64, polling variant
lines 22–35): every field uses `??` (nullish) with default `0`;
`outflows` applies `Math.abs` to `total_debit ?? 0`. -/
def mapMonthlyStats (month : String) (stats : MonthlyStatsSrc) : MonthlyStatsView :=
  { month := month
    openingBalance := stats.opening_balance.getD 0
    closingBalance := stats.closing_balance.getD 0
    inflows := stats.total_credit.getD 0
    outflows := |stats.total_debit.getD 0|
    netChange := stats.net_change.getD 0
    fluctuation := stats.fluctuation.getD 0
    foreignTxns := stats.international_inward_count.getD 0 +
      stats.international_outward_count.getD 0
    foreignAmount := stats.international_inward_total.getD 0 +
      stats.international_outward_total.getD 0
    minBalance := stats.minimum_balance.getD 0 }

/-- Server-side `analytics` record (all fields may be absent). -/
structure AnalyticsSrc where
  average_fluctuation : Option Int := none
  net_cash_flow_stability : Option Int := none
  total_foreign_transactions : Option Int := none
  total_foreign_amount : Option Int := none
  overdraft_frequency : Option Int := none
  overdraft_total_days : Option Int := none
  sum_total_inflow : Option Int := none
  sum_total_outflow : Option Int := none
  avg_total_inflow : Option Int := none
  avg_total_outflow : Option Int := none
  deriving DecidableEq, Repr

/-- Display model for analytics, as built inline in `pollForResults`
(polling variant lines 213–224): each field is copied through optional
chaining (`resultsData.analytics?.field`) with NO default, so an absent
field stays `undefined` (`none`). -/
structure AnalyticsView where
  averageFluctuation : Option Int
  netCashFlowStability : Option Int
  totalForeignTransactions : Option Int
  totalForeignAmount : Option Int
  overdraftFrequency : Option Int
  overdraftTotalDays : Option Int
  sum_total_inflow : Option Int
  sum_total_outflow : Option Int
  avg_total_inflow : Option Int
  avg_total_outflow : Option Int
  deriving DecidableEq, Repr

/-- Embedding of the inline `mappedAnalytics` construction
(`resultsData.analytics?.average_fluctuation` etc.): optional chaining
on a possibly-absent `analytics` object, no defaulting applied. -/
def mapAnalytics (a : Option AnalyticsSrc) : AnalyticsView :=
  { averageFluctuation := a.bind (fun x => x.average_fluctuation)
    netCashFlowStability := a.bind (fun x => x.net_cash_flow_stability)
    totalForeignTransactions := a.bind (fun x => x.total_foreign_transactions)
    totalForeignAmount := a.bind (fun x => x.total_foreign_amount)
    overdraftFrequency := a.bind (fun x => x.overdraft_frequency)
    overdraftTotalDays := a.bind (fun x => x.overdraft_total_days)
    sum_total_inflow := a.bind (fun x => x.sum_total_inflow)
    sum_total_outflow := a.bind (fun x => x.sum_total_outflow)
    avg_total_inflow := a.bind (fun x => x.avg_total_inflow)
    avg_total_outflow := a.bind (fun x => x.avg_total_outflow) }

/-! ### Poll-loop timing (polling variant lines 131–135, 166–181, 244)

The upload handler `onDrop` declares

* `initialPollInterval = 60000`,
* `backoffMultiplier = 1.5`,
* `maxPollTime = 10800000`,

with mutable locals `pollInterval` (starting at the initial interval)
and `totalPollTime` (starting at `0`).  `onDrop` schedules the first
poll with `setTimeout(pollForResults, pollInterval)` (line 244).  On a
`processing` response, `pollForResults` (lines 166–181) executes

```
totalPollTime += pollInterval;
if (totalPollTime >= maxPollTime) { stop request; throw timeout }
pollTimeoutRef.current = setTimeout(pollForResults, pollInterval);
pollInterval = Math.floor(pollInterval * backoffMultiplier);
```

so the next poll is scheduled with the CURRENT interval and only then
is the interval grown.
-/

def initialPollInterval : Nat := 60000

def maxPollTime : Nat := 10800000

/-- `Math.floor(pollInterval * 1.5)` on the integers produced by the
loop, embedded exactly as `3 * i / 2` in `Nat`. -/
def growInterval (i : Nat) : Nat := 3 * i / 2

/-- The mutable poll-loop locals: `pollInterval` and `totalPollTime`. -/
structure LoopState where
  pollInterval : Nat
  totalPollTime : Nat
  deriving DecidableEq, Repr

/-- The state right after `onDrop` sets up the locals. -/
def initLoopState : LoopState := ⟨initialPollInterval, 0⟩

/-- Result of handling one `processing` response. -/
inductive ProcessingStep where
  /-- Budget hit: issue the stop request, throw the timeout error. -/
  | timeout
  /-- Schedule the next poll after `scheduledDelay` ms and continue in
  state `next`. -/
  | continue_ (scheduledDelay : Nat) (next : LoopState)
  deriving DecidableEq, Repr

/-- Embedding of the `processing` branch of `pollForResults`
(lines 166–181): accumulate the current interval into `totalPollTime`,
time out if the accumulator reached `maxPollTime`, otherwise schedule
the next poll with the current (pre-growth) interval and grow the
interval afterwards. -/
def processingStep (st : LoopState) : ProcessingStep :=
  let total := st.totalPollTime + st.pollInterval
  if total ≥ maxPollTime then
    .timeout
  else
    .continue_ st.pollInterval ⟨growInterval st.pollInterval, total⟩

/-- Fueled run of the poll loop under a server that always answers
`processing`.  Returns the list of delays scheduled by successive
`processing` responses and whether the loop ended in the timeout
branch (`false` only when fuel ran out). -/
def runLoop : Nat → LoopState → List Nat × Bool
  | 0, _ => ([], false)
  | fuel + 1, st =>
    match processingStep st with
    | .timeout => ([], true)
    | .continue_ d st' =>
      let r := runLoop fuel st'
      (d :: r.1, r.2)

/-- The delays actually waited before successive poll invocations: the
first poll is scheduled by `onDrop` with `initialPollInterval`
(line 244); every later poll waits the delay scheduled by the previous
`processing` response (line 179).  The poll invocation that enters the
timeout branch was itself preceded by the last scheduled delay, so a
run with scheduled delays `ds` that times out performed
`ds.length + 1` polls waiting `initialPollInterval :: ds` in total. -/
def delaysUsed (scheduled : List Nat) : List Nat :=
  initialPollInterval :: scheduled

/-! ### Upload-poll controller as effect traces

`onDrop` and `pollForResults` run on the single-threaded JS event loop.
A callback executes atomically between suspend points (`await`ed
promises and timer waits); other events — in particular a second call
to `onDrop` — can interleave only at those points.  We therefore model
one invocation of `pollForResults` as a list of emitted effects, each
tagged with the index of the *resumption segment* in which it is
executed:

* segment 0: the timer fired and the callback entered (line 137);
* segment 1: the `await fetch(resultsUrl)` settled (line 145) — either
  resolved (the code then checks `resultsResponse.ok`) or rejected (the
  `catch` block runs);
* segment 2: the `await resultsResponse.json()` settled (line 151);
* segment 3: the `await fetch(stopUrl)` of the timeout branch settled
  (line 172), after which the timeout error is thrown and caught.

`currentPdfIdRef.current` is constant within a segment (nothing else
runs), so the environment supplies its value per segment. -/

/-- A job identifier as returned by the upload endpoint. -/
abbrev PdfId := Nat

/-- One observable effect of the controller.  `clearPolling` models the
helper at lines 51–57: it clears any pending timer, nulls the timer
handle ref and nulls `currentPdfIdRef`. -/
inductive Action where
  | clearPolling
  | setUploadedFile
  | setIsAnalyzing (b : Bool)
  | setError (e : Option String)
  | setShowResults (b : Bool)
  | setAccountInfo (v : AccountInfoView)
  | setMonthlyData (v : List MonthlyStatsView)
  | setAnalytics (v : AnalyticsView)
  /-- `currentPdfIdRef.current = pdfId` (line 128). -/
  | setCurrentPdfId (id : PdfId)
  /-- `pollTimeoutRef.current = setTimeout(pollForResults, delay)`. -/
  | schedulePoll (delay : Nat)
  /-- the best-effort `fetch(stopUrl, {method: POST})` whose outcome is
  never consulted (lines 170–175). -/
  | fetchStop (id : PdfId)
  deriving DecidableEq, Repr

/-- `true` for the effects that mutate the observable view state or
schedule a poll; used to state guard invariants. -/
def Action.isSchedule : Action → Bool
  | .schedulePoll _ => true
  | _ => false

/-- `true` for effects that start a poll session: scheduling a poll or
setting the current-job-id marker to a job. -/
def Action.startsPollSession : Action → Bool
  | .schedulePoll _ => true
  | .setCurrentPdfId _ => true
  | _ => false

/-- `true` for the effects a terminal transition of a poll session
performs: reporting an error, ending the analyzing state, or showing
results. -/
def Action.isTerminal : Action → Bool
  | .setError (some _) => true
  | .setIsAnalyzing false => true
  | .setShowResults true => true
  | _ => false

/-- Payload of a `completed` results response (each part may be absent;
`monthly_analysis` is the entry list of the JSON object, in
`Object.entries` order). -/
structure CompletedData where
  account_info : Option AccountInfoSrc := none
  monthly_analysis : Option (List (String × MonthlyStatsSrc)) := none
  analytics : Option AnalyticsSrc := none
  deriving DecidableEq, Repr

/-- `resultsData.monthly_analysis ? Object.entries(...).map(...) : []`
(lines 199–211): an absent object yields `[]`, otherwise each entry is
mapped by `mapMonthlyStats`. -/
def mapMonthly (m : Option (List (String × MonthlyStatsSrc))) : List MonthlyStatsView :=
  match m with
  | none => []
  | some entries => entries.map (fun p => mapMonthlyStats p.1 p.2)

/-- How the network interaction of one `pollForResults` invocation
turns out. -/
inductive PollOutcome where
  /-- `await fetch(resultsUrl)` rejected with message `msg`. -/
  | fetchNetworkError (msg : String)
  /-- the response resolved with `!resultsResponse.ok` (line 147). -/
  | fetchNotOk
  /-- `await resultsResponse.json()` rejected with message `msg`. -/
  | jsonError (msg : String)
  /-- `status == "error"` with optional `error` message field. -/
  | respError (errMsg : Option String)
  /-- `status == "processing"`. -/
  | respProcessing
  /-- `status == "completed"` with payload `data` and all mapping
  stages succeeding. -/
  | respCompleted (data : CompletedData)
  /-- `status == "completed"` but a mapping stage threw; `msg` is the
  stage message rethrown at lines 195 or 209. -/
  | respCompletedMapError (msg : String)
  /-- any other `status` value: the `try` block falls through with no
  effect at all. -/
  | respUnknown
  deriving DecidableEq, Repr

/-- Environment of one `pollForResults` invocation: the job id the
closure captured, the value of `currentPdfIdRef.current` during each
resumption segment, the network outcome, and the loop locals
(`pollInterval`, `totalPollTime`) at entry. -/
structure PollEnv where
  pdfId : PdfId
  marker : Nat → Option PdfId
  outcome : PollOutcome
  loop : LoopState

/-- The `catch` block of `pollForResults` (lines 232–240), entered in
resumption segment `seg`: re-check the current-job-id guard, then
report the error, end the analyzing state and clear the polling
resources. -/
def catchActions (env : PollEnv) (seg : Nat) (msg : String) : List (Nat × Action) :=
  if env.marker seg = some env.pdfId then
    [(seg, .setError (some ("Error checking processing status: " ++ msg))),
     (seg, .setIsAnalyzing false),
     (seg, .clearPolling)]
  else []

/-- Effect trace of one invocation of `pollForResults` (lines 137–241),
transcribed segment by segment:

* entry guard at line 139 (segment 0);
* a rejected results fetch lands in the `catch` at segment 1; a
  resolved non-ok response throws inside segment 1 and is caught there;
* a rejected body decode lands in the `catch` at segment 2;
* the decoded branches re-check the guard at line 154 (segment 2);
  `error` and `completed` emit their effects in segment 2 (`completed`
  re-checks the guard once more at line 186, within the same segment);
  a mapping failure is caught inside segment 2; the timeout branch
  issues the stop request in segment 2 and throws after it settles, so
  its `catch` effects are in segment 3; the non-timeout `processing`
  branch schedules the next poll in segment 2. -/
def pollRun (env : PollEnv) : List (Nat × Action) :=
  if env.marker 0 = some env.pdfId then
    match env.outcome with
    | .fetchNetworkError msg => catchActions env 1 msg
    | .fetchNotOk => catchActions env 1 "Failed to fetch processing status"
    | .jsonError msg => catchActions env 2 msg
    | .respError errMsg =>
      if env.marker 2 = some env.pdfId then
        [(2, .setError (some (jsOrStr errMsg "Error processing PDF"))),
         (2, .setIsAnalyzing false),
         (2, .clearPolling)]
      else []
    | .respProcessing =>
      if env.marker 2 = some env.pdfId then
        match processingStep env.loop with
        | .timeout =>
          (2, .fetchStop env.pdfId) ::
            catchActions env 3 "Processing timeout. Please try again later."
        | .continue_ d _ => [(2, .schedulePoll d)]
      else []
    | .respCompleted data =>
      if env.marker 2 = some env.pdfId then
        if env.marker 2 = some env.pdfId then
          [(2, .setAccountInfo (mapAccountInfo (data.account_info.getD {}))),
           (2, .setMonthlyData (mapMonthly data.monthly_analysis)),
           (2, .setAnalytics (mapAnalytics data.analytics)),
           (2, .setIsAnalyzing false),
           (2, .setShowResults true),
           (2, .clearPolling)]
        else []
      else []
    | .respCompletedMapError msg =>
      if env.marker 2 = some env.pdfId then catchActions env 2 msg
      else []
    | .respUnknown =>
      []
  else []

/-! ### The upload handler `onDrop` (polling variant lines 83–249) -/

/-- Parsed 2xx upload response body: `{ id }`. -/
structure UploadBody where
  id : Option Nat := none
  deriving DecidableEq, Repr

/-- How the upload request of one `onDrop` invocation turns out. -/
inductive UploadOutcome where
  /-- `await fetch(uploadUrl)` rejected with message `msg`. -/
  | networkError (msg : String)
  /-- non-2xx response.  `jsonBody = none` means the error body was not
  decodable as JSON; `some e` means it decoded with `error` field `e`. -/
  | httpError (status : Nat) (statusText : String) (jsonBody : Option (Option String))
  /-- 2xx response whose body failed `JSON.parse` with message `msg`. -/
  | okBadJson (parseMsg : String)
  /-- 2xx response with parsed JSON body. -/
  | okParsed (body : UploadBody)
  deriving DecidableEq, Repr

/-- The unconditional opening effects of `onDrop` (lines 86–91): cancel
the previous poll session first, then reset the view state. -/
def uploadOpening : List Action :=
  [.clearPolling, .setUploadedFile, .setIsAnalyzing true,
   .setError none, .setShowResults false]

/-- Effects of the `onDrop` outer `catch` (lines 245–249). -/
def uploadCatch (msg : String) : List Action :=
  [.setError (some ("Network or server error: " ++ msg)),
   .setIsAnalyzing false, .clearPolling]

/-- Effect trace of one `onDrop` invocation with a non-empty accepted
file list, transcribed from lines 83–249:

* on a non-2xx response, try to decode a JSON error body; if that
  fails, synthesize `Server error: <status> <statusText>`; surface
  `err.error || 'Failed to upload PDF'`, end analyzing and return
  (lines 100–111);
* on a 2xx body that fails `JSON.parse`, throw into the outer catch
  (lines 113–119);
* on a parsed body without a truthy `id`, throw
  `No PDF ID returned from server` into the outer catch (lines
  121–125);
* otherwise set the current-job-id marker and schedule the first poll
  after `initialPollInterval` (lines 128, 244). -/
def onDropRun (o : UploadOutcome) : List Action :=
  uploadOpening ++
    match o with
    | .networkError msg => uploadCatch msg
    | .httpError status statusText jsonBody =>
      let errField : Option String :=
        match jsonBody with
        | some e => e
        | none => some ("Server error: " ++ toString status ++ " " ++ statusText)
      [.setError (some (jsOrStr errField "Failed to upload PDF")),
       .setIsAnalyzing false]
    | .okBadJson parseMsg =>
      uploadCatch ("Failed to parse upload response: " ++ parseMsg)
    | .okParsed body =>
      match body.id with
      | none => uploadCatch "No PDF ID returned from server"
      | some i =>
        if i = 0 then uploadCatch "No PDF ID returned from server"
        else [.setCurrentPdfId i, .schedulePoll initialPollInterval]

/-! ### LoginPage lockout (LoginPage.tsx lines 32–89, 103–124)

Wall-clock time is modelled in milliseconds as `Nat`.  `Math.ceil` of
the minute count is exact for these magnitudes in IEEE doubles, so it
is embedded as ceiling division on `Nat`.  JS strings are scanned as
their character lists. -/

/-- JS `\s` for the characters relevant here (space, tab, newline,
carriage return, form feed, vertical tab). -/
def isJsWs (c : Char) : Bool :=
  c == ' ' || c == '\t' || c == '\n' || c == '\r' ||
    c == '\x0c' || c == '\x0b'

/-- Decimal value of a digit character. -/
def digitVal (c : Char) : Nat := c.toNat - '0'.toNat

/-- `parseInt` on a non-empty decimal digit run. -/
def natOfDigits (l : List Char) : Nat :=
  l.foldl (fun acc c => 10 * acc + digitVal c) 0

/-- Does `needle` occur at the head of `hay`? -/
def listStarts : List Char → List Char → Bool
  | [], _ => true
  | _ :: _, [] => false
  | a :: as, b :: bs => a == b && listStarts as bs

/-- Does `needle` occur anywhere in `hay`? -/
def listContains (needle : List Char) : List Char → Bool
  | [] => listStarts needle []
  | c :: rest => listStarts needle (c :: rest) || listContains needle rest

/-- Substring containment on JS strings. -/
def containsSub (hay needle : String) : Bool :=
  listContains needle.data hay.data

/-- Try to match the regex `(\d+)\s+minutes` at the head of `l`,
returning the parsed digit group.  Greedy `\d+` and `\s+` need no
backtracking here because the digit, whitespace and `m` character
classes are disjoint. -/
def matchMinutesAt (l : List Char) : Option Nat :=
  let digits := l.takeWhile Char.isDigit
  if digits.isEmpty then none
  else
    let rest1 := l.drop digits.length
    let ws := rest1.takeWhile isJsWs
    if ws.isEmpty then none
    else
      let rest2 := rest1.drop ws.length
      if listStarts "minutes".data rest2 then some (natOfDigits digits)
      else none

/-- Leftmost match of `(\d+)\s+minutes`, as JS `String.match` finds
it: the earliest start position wins. -/
def findMinutes : List Char → Option Nat
  | [] => none
  | c :: rest =>
    match matchMinutesAt (c :: rest) with
    | some n => some n
    | none => findMinutes rest

/-- `data.error?.match(/(\d+)\s+minutes/)` followed by
`parseInt(match[1])` (LoginPage.tsx lines 51–53). -/
def parseLockoutMinutes (s : String) : Option Nat :=
  findMinutes s.data

/-- The lockout timestamp seeded by the 429 branch of
`handlePasscodeComplete` (lines 49–56):
`new Date(Date.now() + minutes * 60 * 1000)` when the error text
matches, `null` (no update) otherwise. -/
def seedLockout (now : Nat) (errText : String) : Option Nat :=
  (parseLockoutMinutes errText).map (fun m => now + m * 60 * 1000)

/-- `getRemainingTime` (lines 78–87): `null` when there is no lockout
or the wall clock passed it (the component also resets `lockoutUntil`
to `null` in that case), otherwise
`Math.ceil((lockoutUntil - now) / 1000 / 60)` minutes. -/
def getRemainingTime (now : Nat) (lockoutUntil : Option Nat) : Option Nat :=
  match lockoutUntil with
  | none => none
  | some u => if u ≤ now then none else some ((u - now + 59999) / 60000)

/-- JS truthiness of `remainingMinutes` (`null` and `0` are falsy). -/
def jsTruthyNat (x : Option Nat) : Bool :=
  match x with
  | none => false
  | some n => n != 0

/-- The `disabled` prop passed to `PasscodeInput`
(`disabled={loading || !!remainingMinutes}`, line 123). -/
def passcodeFormDisabled (loading : Bool) (remaining : Option Nat) : Bool :=
  loading || jsTruthyNat remaining

/-! ### PasscodeInput (PasscodeInput.tsx lines 16–90)

Cell values are JS strings, modelled as character lists.  The handlers
are invoked by React only for the rendered cells, i.e. with an index
below `length`. -/

/-- A JS string as a character list. -/
abbrev JStr := List Char

/-- The regex test `/^\d$/.test(value)`: exactly one decimal digit. -/
def isSingleDigit (v : JStr) : Bool :=
  match v with
  | [c] => c.isDigit
  | _ => false

/-- A user interaction with the passcode cells. -/
inductive PasscodeEvent where
  /-- an `onChange` for cell `index` with new DOM value `value`. -/
  | change (index : Nat) (value : JStr)
  /-- a Backspace `onKeyDown` on cell `index`. -/
  | backspace (index : Nat)
  /-- an `onPaste` with clipboard text `clipboard`. -/
  | paste (clipboard : JStr)
  deriving DecidableEq, Repr

/-- Events delivered by the rendered inputs target a cell below
`length` (paste is handled identically on every cell). -/
def PasscodeEvent.valid (length : Nat) : PasscodeEvent → Prop
  | .change index _ => index < length
  | .backspace index => index < length
  | .paste _ => True

/-- One step of the `PasscodeInput` handlers (`handleChange` lines
31–50, `handleKeyDown` lines 52–70, `handlePaste` lines 72–90).
Returns the new cell values and the argument of the `onComplete` call,
if one is made. -/
def passcodeStep (length : Nat) (disabled : Bool) (values : List JStr) :
    PasscodeEvent → List JStr × Option JStr
  | .change index value =>
    if disabled then (values, none)
    else if !value.isEmpty && !isSingleDigit value then (values, none)
    else
      let newValues := values.set index value
      if newValues.all (fun v => !v.isEmpty) &&
          newValues.flatten.length == length then
        (newValues, some newValues.flatten)
      else (newValues, none)
  | .backspace index =>
    if disabled then (values, none)
    else if !(values.getD index []).isEmpty then (values.set index [], none)
    else if 0 < index then (values.set (index - 1) [], none)
    else (values, none)
  | .paste clipboard =>
    if disabled then (values, none)
    else
      let pasted := clipboard.take length
      if !pasted.isEmpty && pasted.all Char.isDigit then
        let newValues :=
          pasted.map (fun c => [c]) ++ List.replicate (length - pasted.length) []
        if pasted.length == length then (newValues, some pasted)
        else (newValues, none)
      else (values, none)

/-- A cell is either empty or a single decimal digit. -/
def cellOk (v : JStr) : Bool := v.isEmpty || isSingleDigit v

/-- The cell-state invariant: `length` cells, each empty or a single
digit. -/
def passcodeInv (length : Nat) (values : List JStr) : Bool :=
  (values.length == length) && values.all cellOk

/-- The initial cell state `Array(length).fill('')` (line 16). -/
def passcodeInit (length : Nat) : List JStr := List.replicate length []

/-- Run a sequence of events; each is paired with the `disabled` prop
in force when it is delivered. -/
def passcodeRun (length : Nat) (events : List (Bool × PasscodeEvent)) : List JStr :=
  events.foldl
    (fun vals de => (passcodeStep length de.1 vals de.2).1)
    (passcodeInit length)

/-- Each consecutive pair of scheduled delays satisfies the backoff
recurrence and is strictly increasing. -/
def delaysStrictlyGrow : List Nat → Bool
  | [] => true
  | [_] => true
  | a :: b :: rest =>
    (b == growInterval a) && decide (a < b) && delaysStrictlyGrow (b :: rest)

/-! ## Theorems -/

/-- `runLoop` is fuel-insensitive once it has reached the timeout
branch: extra fuel does not change the trace. -/
theorem runLoop_mono :
    ∀ (f g : Nat) (st : LoopState), f ≤ g → (runLoop f st).2 = true →
      runLoop g st = runLoop f st := by
  intro f
  induction f with
  | zero => intro g st _ h; simp [runLoop] at h
  | succ n ih =>
    intro g st hle h
    match g, hle with
    | g' + 1, hle =>
      rw [runLoop, runLoop]
      cases hstep : processingStep st with
      | timeout => rfl
      | continue_ d st' =>
        rw [runLoop, hstep] at h
        dsimp only at h ⊢
        rw [ih g' st' (Nat.le_of_succ_le_succ hle) h]

/-- Auxiliary: setting one cell of a list keeps a `List.all` property
when the new value satisfies it. -/
theorem all_set_of_all {p : JStr → Bool} :
    ∀ (l : List JStr) (i : Nat) (v : JStr),
      l.all p = true → p v = true → (l.set i v).all p = true := by
  intro l
  induction l with
  | nil => intro i v h _; simp [List.set]
  | cons a t ih =>
    intro i v h hv
    simp only [List.all_cons, Bool.and_eq_true] at h
    cases i with
    | zero => simp [List.set, hv, h.2]
    | succ n => simp [List.set, h.1, ih n v h.2 hv]

/-- Auxiliary: a filled cell that satisfies the cell invariant is a
single digit. -/
theorem cell_filled_digit (a : JStr) (h1 : cellOk a = true)
    (h2 : (!a.isEmpty) = true) : ∃ c, a = [c] ∧ c.isDigit = true := by
  match a with
  | [] => simp at h2
  | [c] =>
    refine ⟨c, rfl, ?_⟩
    simpa [cellOk, isSingleDigit] using h1
  | c :: d :: r => simp [cellOk, isSingleDigit] at h1

/-- Auxiliary: the flattening of filled invariant cells has one digit
per cell. -/
theorem flatten_filled_cells :
    ∀ l : List JStr, l.all cellOk = true →
      l.all (fun v => !v.isEmpty) = true →
      l.flatten.length = l.length ∧ l.flatten.all Char.isDigit = true := by
  intro l
  induction l with
  | nil => simp
  | cons a t ih =>
    intro hok hfill
    simp only [List.all_cons, Bool.and_eq_true] at hok hfill
    obtain ⟨c, rfl, hc⟩ := cell_filled_digit a hok.1 hfill.1
    obtain ⟨ihl, ihd⟩ := ih hok.2 hfill.2
    simp [List.flatten_cons, ihl, ihd, hc]

/-- Auxiliary: flattening the singleton-wrapping of a character list
gives the list back. -/
theorem flatten_map_singleton :
    ∀ l : List Char, (l.map (fun c => [c])).flatten = l := by
  intro l
  induction l with
  | nil => rfl
  | cons c t ih => simp [ih]

/-- C4: for a `completed` monthly statistics record with every expected
field present, `mapMonthlyStats` copies each numeric field to its
display counterpart — `inflows` is `total_credit`, `outflows` is the
absolute value of `total_debit`, the foreign fields are the sums of
their inward/outward source pair — and in particular
`{total_credit: 8500, total_debit: -8050}` yields
`{inflows: 8500, outflows: 8050}`. -/
theorem mapMonthlyStats_all_fields :
    (∀ (m : String) (ob cb tc td nc fl iic ioc iit iot mb : Int),
      mapMonthlyStats m
        { opening_balance := some ob, closing_balance := some cb,
          total_credit := some tc, total_debit := some td,
          net_change := some nc, fluctuation := some fl,
          international_inward_count := some iic,
          international_outward_count := some ioc,
          international_inward_total := some iit,
          international_outward_total := some iot,
          minimum_balance := some mb } =
        { month := m, openingBalance := ob, closingBalance := cb,
          inflows := tc, outflows := |td|, netChange := nc,
          fluctuation := fl, foreignTxns := iic + ioc,
          foreignAmount := iit + iot, minBalance := mb }) ∧
    (mapMonthlyStats "Jan"
        { total_credit := some 8500, total_debit := some (-8050) }).inflows = 8500 ∧
    (mapMonthlyStats "Jan"
        { total_credit := some 8500, total_debit := some (-8050) }).outflows = 8050 := by
  refine ⟨fun m ob cb tc td nc fl iic ioc iit iot mb => rfl, rfl, by decide⟩

/-- C5 counterexample: for a `completed` response whose analytics
record is present but missing `average_fluctuation` (and likewise for
an absent analytics record), the display field is left undefined
(`none`), not defaulted to `0` — the analytics mapping uses bare
optional chaining with no default. -/
theorem mapAnalytics_missing_not_defaulted :
    (mapAnalytics (some {})).averageFluctuation = none ∧
    (mapAnalytics none).averageFluctuation = none ∧
    (mapAnalytics (some {})).averageFluctuation ≠ some 0 := by
  refine ⟨rfl, rfl, by decide⟩

/-- C5 (amended): on a `completed` response with absent fields the
mapping never fails; the account-info display fields default to `0`
(numeric) or `""` (text) and the per-month display fields default to
`0`, while the analytics display fields are copied by optional
chaining and are left undefined (`none`) when absent. -/
theorem map_missing_fields_defaults :
    mapAccountInfo {} =
      { customerName := "", accountNumber := "", ibanNumber := "",
        openingBalance := 0, closingBalance := 0, financialPeriod := "",
        pagesProcessed := 0, totalTransactions := 0 } ∧
    (∀ m : String, mapMonthlyStats m {} =
      { month := m, openingBalance := 0, closingBalance := 0,
        inflows := 0, outflows := 0, netChange := 0, fluctuation := 0,
        foreignTxns := 0, foreignAmount := 0, minBalance := 0 }) ∧
    mapAnalytics (some {}) =
      { averageFluctuation := none, netCashFlowStability := none,
        totalForeignTransactions := none, totalForeignAmount := none,
        overdraftFrequency := none, overdraftTotalDays := none,
        sum_total_inflow := none, sum_total_outflow := none,
        avg_total_inflow := none, avg_total_outflow := none } ∧
    mapAnalytics none =
      { averageFluctuation := none, netCashFlowStability := none,
        totalForeignTransactions := none, totalForeignAmount := none,
        overdraftFrequency := none, overdraftTotalDays := none,
        sum_total_inflow := none, sum_total_outflow := none,
        avg_total_inflow := none, avg_total_outflow := none } := by
  refine ⟨by decide, fun m => rfl, rfl, rfl⟩

/-- C6: an upload attempt answered by a non-2xx response whose body is
not decodable as JSON still surfaces a generic error message
synthesized from the HTTP status, ends the analyzing state, and emits
nothing that starts a poll session (no poll scheduled, no current-job
marker set). -/
theorem onDrop_nonjson_error_body :
    ∀ (status : Nat) (statusText : String),
      onDropRun (.httpError status statusText none) =
        uploadOpening ++
          [.setError (some ("Server error: " ++ toString status ++ " " ++ statusText)),
           .setIsAnalyzing false] ∧
      ∀ a ∈ onDropRun (.httpError status statusText none),
        a.startsPollSession = false := by
  intro status statusText
  have hne : ("Server error: " ++ toString status ++ " " ++ statusText) ≠ "" := by
    intro hc
    have := congrArg String.length hc
    simp [String.length_append] at this
    exact absurd this.1.1.1 (by decide)
  have hmain : onDropRun (.httpError status statusText none) =
      uploadOpening ++
        [.setError (some ("Server error: " ++ toString status ++ " " ++ statusText)),
         .setIsAnalyzing false] := by
    simp [onDropRun, jsOrStr, hne]
  refine ⟨hmain, ?_⟩
  intro a ha
  rw [hmain] at ha
  simp [uploadOpening, List.mem_append, List.mem_cons] at ha
  rcases ha with h | h | h | h | h | h | h <;> subst h <;> rfl

/-- C6 witness: the theorem applied to status 500 with a concrete
action. -/
theorem onDrop_nonjson_error_body_witness :
    Action.clearPolling ∈ onDropRun (.httpError 500 "Internal Server Error" none) ∧
    Action.clearPolling.startsPollSession = false :=
  ⟨by decide,
   (onDrop_nonjson_error_body 500 "Internal Server Error").2
     Action.clearPolling (by decide)⟩

/-- C7: an upload attempt answered by a 2xx JSON body with no job
identifier reports an error (via the thrown
`No PDF ID returned from server`), ends the analyzing state, and emits
nothing that starts a poll session: no poll is scheduled and the
current-job-id marker is never set to a job (the trailing
`clearPolling` nulls it). -/
theorem onDrop_missing_job_id :
    onDropRun (.okParsed { id := none }) =
      [.clearPolling, .setUploadedFile, .setIsAnalyzing true,
       .setError none, .setShowResults false,
       .setError (some "Network or server error: No PDF ID returned from server"),
       .setIsAnalyzing false, .clearPolling] ∧
    ∀ a ∈ onDropRun (.okParsed { id := none }), a.startsPollSession = false := by
  refine ⟨by decide, by decide⟩

/-- Auxiliary: every effect of the poll `catch` block is guarded by
the marker value of its own resumption segment. -/
theorem catch_marker (env : PollEnv) (s : Nat) (msg : String) :
    ∀ p ∈ catchActions env s msg, env.marker p.1 = some env.pdfId := by
  intro p hp
  unfold catchActions at hp
  split at hp
  · next h =>
    simp only [List.mem_cons, List.not_mem_nil, or_false] at hp
    rcases hp with h1 | h1 | h1 <;> subst h1 <;> exact h
  · simp at hp

/-- Auxiliary: every effect `pollForResults` emits is emitted in a
segment whose observed current-job-id marker equals the callback's own
job id — each effectful code region sits behind a guard on the marker
value of its own resumption segment. -/
theorem pollRun_marker_eq (env : PollEnv) :
    ∀ p ∈ pollRun env, env.marker p.1 = some env.pdfId := by
  intro p hp
  obtain ⟨id, mk, outc, loop⟩ := env
  simp only [pollRun] at hp
  by_cases h0 : mk 0 = some id
  · rw [if_pos h0] at hp
    cases outc with
    | fetchNetworkError msg => exact catch_marker _ 1 msg p hp
    | fetchNotOk => exact catch_marker _ 1 _ p hp
    | jsonError msg => exact catch_marker _ 2 msg p hp
    | respError errMsg =>
      dsimp only at hp
      split at hp
      · next h2 =>
        simp only [List.mem_cons, List.not_mem_nil, or_false] at hp
        rcases hp with h | h | h <;> subst h <;> exact h2
      · simp at hp
    | respProcessing =>
      dsimp only at hp
      split at hp
      · next h2 =>
        split at hp
        · simp only [List.mem_cons] at hp
          rcases hp with h | h
          · subst h; exact h2
          · exact catch_marker _ 3 _ p h
        · simp only [List.mem_cons, List.not_mem_nil, or_false] at hp
          subst hp; exact h2
      · simp at hp
    | respCompleted data =>
      dsimp only at hp
      split at hp
      · next h2 =>
        simp only [List.mem_cons, List.not_mem_nil, or_false] at hp
        rcases hp with h | h | h | h | h | h <;> subst h <;> exact h2
      · simp at hp
    | respCompletedMapError msg =>
      dsimp only at hp
      split at hp
      · exact catch_marker _ 2 msg p hp
      · simp at hp
    | respUnknown => simp at hp
  · rw [if_neg h0] at hp
    simp at hp

/-- C1: if a second upload has begun by resumption segment `k` — so
from segment `k` on the shared current-job-id marker no longer equals
this callback's job id — then a `pollForResults` invocation emits no
effect (no observable state mutation, no scheduled poll, not even the
stop request) in any segment from `k` on: every effectful resumption
region re-checks the marker and returns without effect when it
differs. -/
theorem pollRun_stale_guard :
    ∀ (env : PollEnv) (k : Nat),
      (∀ j, k ≤ j → env.marker j ≠ some env.pdfId) →
      ∀ p ∈ pollRun env, p.1 < k := by
  intro env k hk p hp
  by_contra hlt
  exact hk p.1 (Nat.le_of_not_lt hlt) (pollRun_marker_eq env p hp)

/-- C1 witness: a callback whose job id 7 was superseded (marker 9 in
every segment) emits nothing at all. -/
theorem pollRun_stale_guard_witness :
    pollRun { pdfId := 7, marker := fun _ => some 9,
              outcome := .respError (some "boom"),
              loop := ⟨60000, 0⟩ } = [] := by
  have h := pollRun_stale_guard
    { pdfId := 7, marker := fun _ => some 9,
      outcome := .respError (some "boom"), loop := ⟨60000, 0⟩ }
    0 (fun j _ => by simp)
  exact List.eq_nil_iff_forall_not_mem.mpr
    (fun p hp => absurd (h p hp) (Nat.not_lt_zero p.1))

/-- Auxiliary: every effect of the poll `catch` block comes with a
`clearPolling` in the same segment, and the block schedules nothing. -/
theorem catch_cleanup (env : PollEnv) (s : Nat) (msg : String) :
    ∀ p ∈ catchActions env s msg,
      (p.1, Action.clearPolling) ∈ catchActions env s msg ∧
      ∀ q ∈ catchActions env s msg, q.2.isSchedule = false := by
  intro p hp
  unfold catchActions at hp ⊢
  split at hp
  · next h =>
    rw [if_pos h]
    simp only [List.mem_cons, List.not_mem_nil, or_false] at hp
    constructor
    · rcases hp with h1 | h1 | h1 <;> subst h1 <;> simp
    · intro q hq
      simp only [List.mem_cons, List.not_mem_nil, or_false] at hq
      rcases hq with h1 | h1 | h1 <;> subst h1 <;> rfl
  · simp at hp

/-- Auxiliary: whenever a `pollForResults` invocation performs a
terminal transition (error reported, analyzing ended, or results
shown), the same invocation also runs `clearPolling` in that very
segment, and the whole invocation schedules no further poll. -/
theorem pollRun_terminal_cleanup (env : PollEnv) :
    ∀ p ∈ pollRun env, p.2.isTerminal = true →
      (p.1, Action.clearPolling) ∈ pollRun env ∧
      ∀ q ∈ pollRun env, q.2.isSchedule = false := by
  intro p hp hterm
  obtain ⟨id, mk, outc, loop⟩ := env
  simp only [pollRun] at hp ⊢
  by_cases h0 : mk 0 = some id
  · rw [if_pos h0] at hp ⊢
    cases outc with
    | fetchNetworkError msg => exact catch_cleanup _ 1 msg p hp
    | fetchNotOk => exact catch_cleanup _ 1 _ p hp
    | jsonError msg => exact catch_cleanup _ 2 msg p hp
    | respError errMsg =>
      dsimp only at hp ⊢
      split at hp
      · next h2 =>
        rw [if_pos h2]
        simp only [List.mem_cons, List.not_mem_nil, or_false] at hp
        constructor
        · rcases hp with h1 | h1 | h1 <;> subst h1 <;> simp
        · intro q hq
          simp only [List.mem_cons, List.not_mem_nil, or_false] at hq
          rcases hq with h1 | h1 | h1 <;> subst h1 <;> rfl
      · simp at hp
    | respProcessing =>
      dsimp only at hp ⊢
      split at hp
      · next h2 =>
        rw [if_pos h2]
        rcases hstep : processingStep loop with _ | ⟨d, st2⟩ <;>
          rw [hstep] at hp <;> dsimp only at hp
        · simp only [List.mem_cons] at hp
          rcases hp with h1 | h1
          · subst h1; simp [Action.isTerminal] at hterm
          · have hc := catch_cleanup _ 3 _ p h1
            constructor
            · exact List.mem_cons_of_mem _ hc.1
            · intro q hq
              simp only [List.mem_cons] at hq
              rcases hq with h2 | h2
              · subst h2; rfl
              · exact hc.2 q h2
        · simp only [List.mem_cons, List.not_mem_nil, or_false] at hp
          subst hp; simp [Action.isTerminal] at hterm
      · simp at hp
    | respCompleted data =>
      dsimp only at hp ⊢
      split at hp
      · next h2 =>
        rw [if_pos h2, if_pos h2]
        simp only [List.mem_cons, List.not_mem_nil, or_false] at hp
        constructor
        · rcases hp with h1 | h1 | h1 | h1 | h1 | h1 <;> subst h1 <;> simp
        · intro q hq
          simp only [List.mem_cons, List.not_mem_nil, or_false] at hq
          rcases hq with h1 | h1 | h1 | h1 | h1 | h1 <;> subst h1 <;> rfl
      · simp at hp
    | respCompletedMapError msg =>
      dsimp only at hp ⊢
      split at hp
      · next h2 =>
        rw [if_pos h2]
        exact catch_cleanup _ 2 msg p hp
      · simp at hp
    | respUnknown => simp at hp
  · rw [if_neg h0] at hp
    simp at hp

/-- C7 witness: the theorem applied to a concrete action of the
emitted trace. -/
theorem onDrop_missing_job_id_witness :
    Action.clearPolling ∈ onDropRun (.okParsed { id := none }) ∧
    Action.clearPolling.startsPollSession = false :=
  ⟨by decide, onDrop_missing_job_id.2 Action.clearPolling (by decide)⟩

/-- C8: after every terminal transition of a poll session (completed,
server-reported error, poll failure, or timeout) the invocation also
runs `clearPolling` — which clears the pending timer, nulls the handle
ref and nulls the marker — and schedules nothing further; and a new
upload (`onDrop`) runs `clearPolling` as its very first effect, so a
superseded session's pending timer is cleared as well. -/
theorem poll_session_cleanup :
    (∀ (env : PollEnv), ∀ p ∈ pollRun env, p.2.isTerminal = true →
      (p.1, Action.clearPolling) ∈ pollRun env ∧
      ∀ q ∈ pollRun env, q.2.isSchedule = false) ∧
    (∀ o : UploadOutcome, (onDropRun o).head? = some Action.clearPolling) :=
  ⟨fun env p hp ht => pollRun_terminal_cleanup env p hp ht, fun _ => rfl⟩

/-- C8 witness: the theorem applied to a server-reported error
response of the current session. -/
theorem poll_session_cleanup_witness :
    ((2 : Nat), Action.clearPolling) ∈
      pollRun { pdfId := 7, marker := fun _ => some 7,
                outcome := .respError (some "boom"), loop := ⟨60000, 0⟩ } :=
  (poll_session_cleanup.1
    { pdfId := 7, marker := fun _ => some 7,
      outcome := .respError (some "boom"), loop := ⟨60000, 0⟩ }
    (2, Action.setIsAnalyzing false) (by decide) (by decide)).1

/-- C2 counterexample: under a server that always answers
`processing`, the loop times out on its 12th poll (after 11 scheduled
delays), yet at that moment the accumulated elapsed time obtained by
summing each delay actually just used — the initial 60000 ms wait plus
the 11 scheduled delays — is 10319694 ms, strictly below the
10800000 ms budget.  The timeout therefore does NOT fire "once the sum
of the delays just used reaches the budget": `totalPollTime` adds the
interval value already grown after the previous scheduling, not the
delay just waited. -/
theorem poll_timeout_before_used_delays_budget :
    (runLoop 20 initLoopState).2 = true ∧
    (runLoop 20 initLoopState).1.length = 11 ∧
    (delaysUsed (runLoop 20 initLoopState).1).sum = 10319694 ∧
    10319694 < maxPollTime := by
  refine ⟨rfl, rfl, rfl, by decide⟩

/-- C2 (amended): if the server always answers `processing`, the loop
performs only finitely many polls — with the code's constants the 12th
poll times out, and extra fuel changes nothing; the timeout branch is
entered exactly when the code's accumulator `totalPollTime` (which
adds the current interval value at each `processing` response, from
the second response onward a value larger than the delay just waited)
reaches the 10800000 ms budget; and on that branch the invocation
issues the best-effort stop request (whose outcome is never
consulted), reports the timeout error, ends the analyzing state, and
clears the polling resources without scheduling anything further. -/
theorem poll_timeout_budget :
    runLoop 20 initLoopState =
      ([60000, 90000, 135000, 202500, 303750, 455625, 683437,
        1025155, 1537732, 2306598, 3459897], true) ∧
    (∀ fuel, 20 ≤ fuel → runLoop fuel initLoopState = runLoop 20 initLoopState) ∧
    (∀ st : LoopState,
      processingStep st = .timeout ↔ maxPollTime ≤ st.totalPollTime + st.pollInterval) ∧
    (∀ env : PollEnv, env.marker 0 = some env.pdfId →
      env.marker 2 = some env.pdfId → env.marker 3 = some env.pdfId →
      env.outcome = .respProcessing → processingStep env.loop = .timeout →
      pollRun env =
        [(2, .fetchStop env.pdfId),
         (3, .setError (some "Error checking processing status: Processing timeout. Please try again later.")),
         (3, .setIsAnalyzing false),
         (3, .clearPolling)]) := by
  refine ⟨rfl, ?_, ?_, ?_⟩
  · intro fuel hf
    exact runLoop_mono 20 fuel initLoopState hf rfl
  · intro st
    unfold processingStep
    constructor
    · intro h
      by_contra hc
      rw [if_neg ?_] at h
      · exact ProcessingStep.noConfusion h
      · omega
    · intro h
      rw [if_pos ?_]
      omega
  · intro env h0 h2 h3 hout hstep
    obtain ⟨id, mk, outc, loop⟩ := env
    simp only at h0 h2 h3 hout hstep
    subst hout
    simp [pollRun, catchActions, h0, h2, h3, hstep]

/-- C2 witness: the amended theorem applied to a concrete
budget-exceeded environment. -/
theorem poll_timeout_budget_witness :
    processingStep ⟨3459897, 10259694⟩ = .timeout ∧
    pollRun { pdfId := 7, marker := fun _ => some 7,
              outcome := .respProcessing, loop := ⟨3459897, 10259694⟩ } =
      [(2, .fetchStop 7),
       (3, .setError (some "Error checking processing status: Processing timeout. Please try again later.")),
       (3, .setIsAnalyzing false),
       (3, .clearPolling)] :=
  ⟨by decide,
   poll_timeout_budget.2.2.2
     { pdfId := 7, marker := fun _ => some 7,
       outcome := .respProcessing, loop := ⟨3459897, 10259694⟩ }
     rfl rfl rfl rfl (by decide)⟩

/-- C3: on a `processing` response within budget, the next poll is
scheduled with the current interval and only afterwards is the
interval grown by the fixed 1.5 multiplier (floored), so the delay
just used is never changed retroactively and the scheduled delays of
successive `processing` responses grow strictly by that multiplier —
as the concrete always-`processing` trace of the code's constants
exhibits. -/
theorem poll_backoff_schedule :
    (∀ (st : LoopState) (d : Nat) (st2 : LoopState),
      processingStep st = .continue_ d st2 →
        d = st.pollInterval ∧
        st2.pollInterval = growInterval d ∧
        st2.totalPollTime = st.totalPollTime + d ∧
        (2 ≤ d → d < st2.pollInterval)) ∧
    delaysStrictlyGrow (runLoop 20 initLoopState).1 = true := by
  constructor
  · intro st d st2 h
    unfold processingStep at h
    dsimp only at h
    split at h
    · exact ProcessingStep.noConfusion h
    · obtain ⟨h1, h2⟩ := ProcessingStep.continue_.inj h
      subst h1
      refine ⟨rfl, by rw [← h2], by rw [← h2], ?_⟩
      intro hd
      rw [← h2]
      simp only [growInterval]
      omega
  · rfl

/-- C3 witness: the theorem applied to the initial loop state. -/
theorem poll_backoff_schedule_witness :
    processingStep ⟨60000, 0⟩ = .continue_ 60000 ⟨90000, 60000⟩ ∧
    ((60000 : Nat) = (60000 : Nat) ∧
      (90000 : Nat) = growInterval 60000 ∧
      (60000 : Nat) = 0 + 60000 ∧
      (2 ≤ 60000 → (60000 : Nat) < 90000)) :=
  ⟨by decide,
   poll_backoff_schedule.1 ⟨60000, 0⟩ 60000 ⟨90000, 60000⟩ (by decide)⟩

/-- C9 counterexample: the 429 error text
`"Too many failed attempts. Please try again in 15 minutes."` contains
`"5 minutes"` as a substring, yet the client parses the full
minutes-count `15` from the regex match, seeds the lockout timestamp
fifteen — not five — minutes ahead, and starts the countdown at 15.
Also, the upload handler (`onDrop`) never seeds a lockout at all, so
the claim's quantification over upload attempts fails independently. -/
theorem lockout_fifteen_minutes_counterexample :
    containsSub "Too many failed attempts. Please try again in 15 minutes."
      "5 minutes" = true ∧
    parseLockoutMinutes
      "Too many failed attempts. Please try again in 15 minutes." = some 15 ∧
    seedLockout 0
      "Too many failed attempts. Please try again in 15 minutes." = some 900000 ∧
    seedLockout 0
      "Too many failed attempts. Please try again in 15 minutes." ≠
        some (5 * 60 * 1000) ∧
    getRemainingTime 0 (some 900000) = some 15 := by
  refine ⟨rfl, rfl, rfl, by decide, rfl⟩

/-- C9 (amended): for a 429 response to a LOGIN attempt whose error
text's first `(\d+)\s+minutes` match parses to 5, the client seeds the
lockout timestamp exactly five minutes ahead, the displayed countdown
starts at 5 minutes, the passcode form is disabled at every instant
before the timestamp (whatever the loading flag), and once the wall
clock reaches the timestamp the countdown clears and the form is
re-enabled. -/
theorem lockout_five_minutes :
    ∀ (now : Nat) (e : String) (loading : Bool),
      parseLockoutMinutes e = some 5 →
        seedLockout now e = some (now + 5 * 60 * 1000) ∧
        getRemainingTime now (some (now + 5 * 60 * 1000)) = some 5 ∧
        (∀ t, t < now + 5 * 60 * 1000 →
          passcodeFormDisabled loading
            (getRemainingTime t (some (now + 5 * 60 * 1000))) = true) ∧
        (∀ t, now + 5 * 60 * 1000 ≤ t →
          getRemainingTime t (some (now + 5 * 60 * 1000)) = none ∧
          passcodeFormDisabled false
            (getRemainingTime t (some (now + 5 * 60 * 1000))) = false) := by
  intro now e loading h
  refine ⟨by simp [seedLockout, h], ?_, ?_, ?_⟩
  · simp only [getRemainingTime]
    rw [if_neg (by omega)]
    congr 1
    omega
  · intro t ht
    simp only [getRemainingTime]
    rw [if_neg (by omega)]
    simp only [passcodeFormDisabled, jsTruthyNat]
    have hq : (now + 5 * 60 * 1000 - t + 59999) / 60000 ≠ 0 := by omega
    simp [hq]
  · intro t ht
    simp only [getRemainingTime]
    rw [if_pos (by omega)]
    exact ⟨rfl, rfl⟩

/-- C9 witness: the amended theorem applied to a concrete login error
message whose minutes-count is 5. -/
theorem lockout_five_minutes_witness :
    parseLockoutMinutes "Please wait 5 minutes before trying again." = some 5 ∧
    seedLockout 1000 "Please wait 5 minutes before trying again." = some 301000 :=
  ⟨by decide,
   (lockout_five_minutes 1000 "Please wait 5 minutes before trying again."
     false (by decide)).1⟩

/-- Auxiliary: one `PasscodeInput` event preserves the cell
invariant. -/
theorem passcodeInv_step (length : Nat) (disabled : Bool) (values : List JStr)
    (e : PasscodeEvent) (hin : passcodeInv length values = true) :
    passcodeInv length (passcodeStep length disabled values e).1 = true := by
  cases e with
  | change i v =>
    simp only [passcodeStep]
    split
    · exact hin
    split
    · exact hin
    · next hguard =>
      have hcell : cellOk v = true := by
        cases hve : v.isEmpty <;> cases hsd : isSingleDigit v <;>
          simp_all [cellOk]
      simp only [passcodeInv, Bool.and_eq_true, beq_iff_eq] at hin
      split <;>
        (simp only [passcodeInv, Bool.and_eq_true, beq_iff_eq]
         exact ⟨by rw [List.length_set]; exact hin.1,
                all_set_of_all values i v hin.2 hcell⟩)
  | backspace i =>
    simp only [passcodeStep]
    simp only [passcodeInv, Bool.and_eq_true, beq_iff_eq] at hin
    split
    · simp only [passcodeInv, Bool.and_eq_true, beq_iff_eq]
      exact ⟨hin.1, hin.2⟩
    split
    · simp only [passcodeInv, Bool.and_eq_true, beq_iff_eq]
      exact ⟨by rw [List.length_set]; exact hin.1,
             all_set_of_all values i [] hin.2 rfl⟩
    split
    · simp only [passcodeInv, Bool.and_eq_true, beq_iff_eq]
      exact ⟨by rw [List.length_set]; exact hin.1,
             all_set_of_all values (i - 1) [] hin.2 rfl⟩
    · simp only [passcodeInv, Bool.and_eq_true, beq_iff_eq]
      exact ⟨hin.1, hin.2⟩
  | paste c =>
    simp only [passcodeStep]
    split
    · exact hin
    · split
      · next hok =>
        simp only [Bool.and_eq_true] at hok
        have hle : (c.take length).length ≤ length := by
          rw [List.length_take]; exact min_le_left _ _
        have hnv : passcodeInv length
            ((c.take length).map (fun ch => [ch]) ++
              List.replicate (length - (c.take length).length) []) = true := by
          simp only [passcodeInv, Bool.and_eq_true, beq_iff_eq,
            List.length_append, List.length_map, List.length_replicate,
            List.all_append]
          refine ⟨by omega, ?_, ?_⟩
          · refine List.all_eq_true.mpr (fun x hx => ?_)
            obtain ⟨ch, hch, rfl⟩ := List.mem_map.mp hx
            have := List.all_eq_true.mp hok.2 ch hch
            simp [cellOk, isSingleDigit, this]
          · refine List.all_eq_true.mpr (fun x hx => ?_)
            rw [List.eq_of_mem_replicate hx]
            rfl
        split <;> exact hnv
      · exact hin

/-- Auxiliary: the initial cell state satisfies the invariant. -/
theorem passcodeInit_inv (length : Nat) :
    passcodeInv length (passcodeInit length) = true := by
  simp only [passcodeInv, passcodeInit, Bool.and_eq_true, beq_iff_eq,
    List.length_replicate]
  refine ⟨by simp, List.all_eq_true.mpr (fun x hx => ?_)⟩
  rw [List.eq_of_mem_replicate hx]
  rfl

/-- Auxiliary: any event sequence starting from the initial state
keeps the cell invariant. -/
theorem passcodeRun_inv (length : Nat) (events : List (Bool × PasscodeEvent)) :
    passcodeInv length (passcodeRun length events) = true := by
  suffices h : ∀ (evs : List (Bool × PasscodeEvent)) (vals : List JStr),
      passcodeInv length vals = true →
      passcodeInv length
        (evs.foldl (fun vs de => (passcodeStep length de.1 vs de.2).1) vals) = true by
    exact h events (passcodeInit length) (passcodeInit_inv length)
  intro evs
  induction evs with
  | nil => intro vals h; exact h
  | cons de rest ih =>
    intro vals h
    exact ih _ (passcodeInv_step length de.1 vals de.2 h)

/-- Auxiliary: whenever a step invokes `onComplete`, the payload is the
flattening of the new, fully filled cell state and consists of exactly
`length` digits. -/
theorem passcodeStep_complete_char (length : Nat) (disabled : Bool)
    (values : List JStr) (e : PasscodeEvent) (nv : List JStr) (s : JStr)
    (hin : passcodeInv length values = true)
    (heq : passcodeStep length disabled values e = (nv, some s)) :
    s.length = length ∧ s.all Char.isDigit = true ∧
    nv.all (fun v => !v.isEmpty) = true ∧ s = nv.flatten := by
  have hinv : passcodeInv length nv = true := by
    have h := passcodeInv_step length disabled values e hin
    rw [heq] at h
    exact h
  cases e with
  | change i v =>
    simp only [passcodeStep] at heq
    split at heq
    · exact absurd (congrArg Prod.snd heq) (by simp)
    split at heq
    · exact absurd (congrArg Prod.snd heq) (by simp)
    · split at heq
      · next hcomp =>
        obtain ⟨h1, h2⟩ := Prod.mk.inj heq
        subst h1
        have hs := Option.some.inj h2
        simp only [Bool.and_eq_true, beq_iff_eq] at hcomp
        simp only [passcodeInv, Bool.and_eq_true, beq_iff_eq] at hinv
        have hdig := flatten_filled_cells _ hinv.2 hcomp.1
        refine ⟨?_, ?_, hcomp.1, hs.symm⟩
        · rw [← hs]; exact hcomp.2
        · rw [← hs]; exact hdig.2
      · exact absurd (congrArg Prod.snd heq) (by simp)
  | backspace i =>
    simp only [passcodeStep] at heq
    split at heq
    · exact absurd (congrArg Prod.snd heq) (by simp)
    split at heq
    · exact absurd (congrArg Prod.snd heq) (by simp)
    split at heq
    · exact absurd (congrArg Prod.snd heq) (by simp)
    · exact absurd (congrArg Prod.snd heq) (by simp)
  | paste c =>
    simp only [passcodeStep] at heq
    split at heq
    · exact absurd (congrArg Prod.snd heq) (by simp)
    · split at heq
      · next hok =>
        split at heq
        · next hfull =>
          obtain ⟨h1, h2⟩ := Prod.mk.inj heq
          have hs := Option.some.inj h2
          simp only [Bool.and_eq_true] at hok
          rw [beq_iff_eq] at hfull
          have hzero : length - (c.take length).length = 0 := by omega
          subst h1
          refine ⟨?_, ?_, ?_, ?_⟩
          · rw [← hs]; exact hfull
          · rw [← hs]; exact hok.2
          · rw [hzero]
            simp only [List.replicate, List.append_nil]
            refine List.all_eq_true.mpr (fun x hx => ?_)
            obtain ⟨ch, _, rfl⟩ := List.mem_map.mp hx
            rfl
          · rw [← hs, hzero, List.replicate_zero, List.append_nil,
              flatten_map_singleton]
        · exact absurd (congrArg Prod.snd heq) (by simp)
      · exact absurd (congrArg Prod.snd heq) (by simp)

/-- Auxiliary: an enabled change event with an allowed value (empty or
single digit) completes exactly when the resulting cells are all
filled. -/
theorem passcodeStep_change_completes (length i : Nat) (v : JStr)
    (values nv : List JStr) (comp : Option JStr)
    (hin : passcodeInv length values = true)
    (hguard : (v.isEmpty || isSingleDigit v) = true)
    (heq : passcodeStep length false values (.change i v) = (nv, comp)) :
    comp.isSome = true ↔ nv.all (fun x => !x.isEmpty) = true := by
  simp only [passcodeStep] at heq
  split at heq
  · next h => simp at h
  split at heq
  · next h =>
    cases hve : v.isEmpty <;> cases hsd : isSingleDigit v <;> simp_all
  · split at heq
    · next hcomp =>
      obtain ⟨h1, h2⟩ := Prod.mk.inj heq
      subst h1
      subst h2
      simp only [Bool.and_eq_true, beq_iff_eq] at hcomp
      simp [hcomp.1]
    · next hcomp =>
      obtain ⟨h1, h2⟩ := Prod.mk.inj heq
      subst h1
      subst h2
      simp only [Option.isSome_none, Bool.false_eq_true, false_iff]
      intro hall
      apply hcomp
      have hcell : cellOk v = true := by
        cases hve : v.isEmpty <;> cases hsd : isSingleDigit v <;> simp_all [cellOk]
      simp only [passcodeInv, Bool.and_eq_true, beq_iff_eq] at hin
      have hok : (values.set i v).all cellOk = true :=
        all_set_of_all values i v hin.2 hcell
      have hfl := flatten_filled_cells _ hok hall
      simp only [Bool.and_eq_true, beq_iff_eq]
      exact ⟨hall, by rw [hfl.1, List.length_set]; exact hin.1⟩

/-- Auxiliary: an enabled paste of an accepted (non-empty all-digit)
clipboard slice completes exactly when the resulting cells are all
filled, i.e. exactly when the slice fills every cell. -/
theorem passcodeStep_paste_completes (length : Nat) (c : JStr)
    (values nv : List JStr) (comp : Option JStr)
    (hok : (!(c.take length).isEmpty && (c.take length).all Char.isDigit) = true)
    (heq : passcodeStep length false values (.paste c) = (nv, comp)) :
    comp.isSome = true ↔ nv.all (fun x => !x.isEmpty) = true := by
  simp only [passcodeStep] at heq
  rw [if_neg (by simp : ¬(false = true)), if_pos hok] at heq
  by_cases hfull : ((c.take length).length == length) = true
  · rw [if_pos hfull] at heq
    obtain ⟨h1, h2⟩ := Prod.mk.inj heq
    subst h1
    subst h2
    rw [beq_iff_eq] at hfull
    have hzero : length - (c.take length).length = 0 := by omega
    simp only [Option.isSome_some, true_iff, hzero, List.replicate_zero,
      List.append_nil]
    refine List.all_eq_true.mpr (fun x hx => ?_)
    obtain ⟨ch, _, rfl⟩ := List.mem_map.mp hx
    rfl
  · rw [if_neg hfull] at heq
    obtain ⟨h1, h2⟩ := Prod.mk.inj heq
    subst h1
    subst h2
    simp only [Option.isSome_none, Bool.false_eq_true, false_iff]
    intro hall
    have hle : (c.take length).length ≤ length := by
      rw [List.length_take]; exact min_le_left _ _
    have hlt : (c.take length).length < length := by
      rcases Nat.lt_or_ge (c.take length).length length with h | h
      · exact h
      · exact absurd (beq_iff_eq.mpr (Nat.le_antisymm hle h)) hfull
    have hmem : ([] : JStr) ∈
        (c.take length).map (fun ch => [ch]) ++
          List.replicate (length - (c.take length).length) [] := by
      refine List.mem_append.mpr (Or.inr ?_)
      exact List.mem_replicate.mpr ⟨by omega, rfl⟩
    have := List.all_eq_true.mp hall _ hmem
    simp at this

/-- Auxiliary: a Backspace event never invokes `onComplete`. -/
theorem passcodeStep_backspace_none (length : Nat) (disabled : Bool)
    (values : List JStr) (i : Nat) :
    (passcodeStep length disabled values (.backspace i)).2 = none := by
  simp only [passcodeStep]
  split
  · rfl
  split
  · rfl
  split
  · rfl
  · rfl

/-- Auxiliary: while disabled, every event leaves the cells unchanged
and completes nothing. -/
theorem passcodeStep_disabled (length : Nat) (values : List JStr)
    (e : PasscodeEvent) :
    passcodeStep length true values e = (values, none) := by
  cases e <;> rfl

/-- Auxiliary: a change event whose value is non-empty and not a
single digit is a no-op. -/
theorem passcodeStep_nondigit (length : Nat) (disabled : Bool)
    (values : List JStr) (i : Nat) (v : JStr)
    (h : (!v.isEmpty && !isSingleDigit v) = true) :
    passcodeStep length disabled values (.change i v) = (values, none) := by
  cases disabled
  · simp [passcodeStep, h]
  · rfl

/-- C10: across every sequence of user interactions with the rendered
cells (changes, backspaces, pastes), every cell always holds the empty
string or a single decimal digit — non-digit input and any input while
disabled leave the cells unchanged — and `onComplete` is invoked only
with a string of exactly `length` decimal digits (the flattening of
the fully filled cells), exactly when an enabled mutating event leaves
all cells filled; Backspace never completes. -/
theorem passcode_cells_invariant :
    (∀ length : Nat, passcodeInv length (passcodeInit length) = true) ∧
    (∀ (length : Nat) (events : List (Bool × PasscodeEvent)),
      passcodeInv length (passcodeRun length events) = true) ∧
    (∀ (length : Nat) (disabled : Bool) (values : List JStr) (e : PasscodeEvent),
      passcodeInv length values = true → e.valid length →
      passcodeInv length (passcodeStep length disabled values e).1 = true) ∧
    (∀ (length : Nat) (disabled : Bool) (values nv : List JStr)
        (e : PasscodeEvent) (s : JStr),
      passcodeInv length values = true → e.valid length →
      passcodeStep length disabled values e = (nv, some s) →
        s.length = length ∧ s.all Char.isDigit = true ∧
        nv.all (fun v => !v.isEmpty) = true ∧ s = nv.flatten) ∧
    (∀ (length : Nat) (values : List JStr) (e : PasscodeEvent),
      passcodeStep length true values e = (values, none)) ∧
    (∀ (length : Nat) (disabled : Bool) (values : List JStr) (i : Nat) (v : JStr),
      (!v.isEmpty && !isSingleDigit v) = true →
        passcodeStep length disabled values (.change i v) = (values, none)) ∧
    (∀ (length i : Nat) (v : JStr) (values nv : List JStr) (comp : Option JStr),
      passcodeInv length values = true → i < length →
      (v.isEmpty || isSingleDigit v) = true →
      passcodeStep length false values (.change i v) = (nv, comp) →
        (comp.isSome = true ↔ nv.all (fun x => !x.isEmpty) = true)) ∧
    (∀ (length : Nat) (c : JStr) (values nv : List JStr) (comp : Option JStr),
      (!(c.take length).isEmpty && (c.take length).all Char.isDigit) = true →
      passcodeStep length false values (.paste c) = (nv, comp) →
        (comp.isSome = true ↔ nv.all (fun x => !x.isEmpty) = true)) ∧
    (∀ (length : Nat) (disabled : Bool) (values : List JStr) (i : Nat),
      (passcodeStep length disabled values (.backspace i)).2 = none) := by
  refine ⟨passcodeInit_inv, passcodeRun_inv,
    fun length disabled values e hin _ => passcodeInv_step length disabled values e hin,
    fun length disabled values nv e s hin _ heq =>
      passcodeStep_complete_char length disabled values e nv s hin heq,
    passcodeStep_disabled,
    passcodeStep_nondigit,
    fun length i v values nv comp hin _ hguard heq =>
      passcodeStep_change_completes length i v values nv comp hin hguard heq,
    passcodeStep_paste_completes,
    passcodeStep_backspace_none⟩

/-- C10 witness: the theorem applied to a full six-digit paste from
the initial state. -/
theorem passcode_cells_invariant_witness :
    passcodeInv 6
      (passcodeRun 6 [(false, .paste ['1', '2', '3', '4', '5', '6'])]) = true ∧
    ((['1', '2', '3', '4', '5', '6'] : JStr).length = 6 ∧
      (['1', '2', '3', '4', '5', '6'] : JStr).all Char.isDigit = true ∧
      ([['1'], ['2'], ['3'], ['4'], ['5'], ['6']] : List JStr).all
        (fun v => !v.isEmpty) = true ∧
      (['1', '2', '3', '4', '5', '6'] : JStr) =
        ([['1'], ['2'], ['3'], ['4'], ['5'], ['6']] : List JStr).flatten) :=
  ⟨passcode_cells_invariant.2.1 6 [(false, .paste ['1', '2', '3', '4', '5', '6'])],
   passcode_cells_invariant.2.2.2.1 6 false (passcodeInit 6)
     [['1'], ['2'], ['3'], ['4'], ['5'], ['6']]
     (.paste ['1', '2', '3', '4', '5', '6']) ['1', '2', '3', '4', '5', '6']
     (by decide) trivial (by decide)⟩

end LedgerLens
